import Mathlib

/-!
Verification of the CI notification scripts of this repository.

The repository contains three bot scripts:
* `Proto1` — the first protobuf review trigger script (fail-closed guard),
* `Proto2` — the second protobuf review trigger script (fail-open guard),
* `LinkBot` — the missing-linked-issue reminder script.

Strings are modelled as `List Char` (JavaScript strings are sequences of
code units; none of the texts involved need surrogate pairs).  File system
reads are modelled as a map from path to optional content; the external
comment API is modelled by passing the outcome of each call as an input.
Console logging does not affect data flow and is modelled only where a
claim mentions it (the guard's error log).
-/

/-- Whitespace as stripped by JavaScript `String.prototype.trim`
(space, tab, line feed, carriage return, vertical tab, form feed). -/
def isJsSpace (c : Char) : Bool :=
  c = ' ' || c = '\t' || c = '\n' || c = '\r' || c = Char.ofNat 11 || c = Char.ofNat 12

/-- JavaScript `String.prototype.trim`: strip whitespace from both ends. -/
def jsTrim (l : List Char) : List Char :=
  ((l.dropWhile isJsSpace).reverse.dropWhile isJsSpace).reverse

/-- Split on the regular expression `\r?\n` (as in `text.split(/\r?\n/)`):
a line feed ends a line, an immediately preceding carriage return is
consumed with it, and a lone carriage return stays inside the line. -/
def splitRN : List Char → List (List Char)
  | [] => [[]]
  | '\r' :: '\n' :: rest => [] :: splitRN rest
  | '\n' :: rest => [] :: splitRN rest
  | c :: rest =>
      match splitRN rest with
      | [] => [[c]]
      | l :: ls => (c :: l) :: ls

/-- The loop body of `parseUniqueLines`: trim each raw line, drop empty
lines and lines already in `seen`, keep the rest in order (the `seen`
set of the script is modelled as the list of lines kept so far). -/
def dedupKeepFirst (seen : List (List Char)) : List (List Char) → List (List Char)
  | [] => []
  | raw :: rest =>
      let line := jsTrim raw
      if line = [] ∨ line ∈ seen then dedupKeepFirst seen rest
      else line :: dedupKeepFirst (line :: seen) rest

/-- Function `parseUniqueLines` (identical in both protobuf scripts): split on
`\r?\n`, trim each line, drop empty lines and duplicates, keep first-seen
order. -/
def parseUniqueLines (text : List Char) : List (List Char) :=
  dedupKeepFirst [] (splitRN text)

/-- The fixed truncation annotation appended by `truncateDiff`
(the template contributes a leading line feed). -/
def truncationNote : List Char :=
  '\n' :: ("... (diff truncated in CI comment)".data)

/-- Result of `truncateDiff` (`{ truncated, text }` in the scripts). -/
structure TruncResult where
  truncated : Bool
  text : List Char
deriving DecidableEq

/-- JavaScript `String.prototype.lastIndexOf("\n")`, as an `Option`
(`none` plays the role of the sentinel `-1`). -/
def lastIndexOfNL : List Char → Option Nat
  | [] => none
  | c :: rest =>
      match lastIndexOfNL rest with
      | some i => some (i + 1)
      | none => if c = '\n' then some 0 else none

def MAX_DIFF_CHARS : Nat := 12000

/-- Function `truncateDiff` (identical in both protobuf scripts).  Note the source
condition `lineBreakIndex > 0`: a line feed at index `0` is treated like
no line feed at all and the raw slice is kept. -/
def truncateDiff (diffText : List Char) (maxChars : Nat) : TruncResult :=
  if diffText.length ≤ maxChars then ⟨false, diffText⟩
  else
    let slice := diffText.take maxChars
    let safeSlice :=
      match lastIndexOfNL slice with
      | some i => if 0 < i then slice.take i else slice
      | none => slice
    ⟨true, safeSlice ++ truncationNote⟩

/-- JavaScript `hay.includes(needle)`: contiguous substring test. -/
def listIncludes (needle : List Char) : List Char → Bool
  | [] => needle.isEmpty
  | c :: rest => needle.isPrefixOf (c :: rest) || listIncludes needle rest

/-- An issue comment as the scripts see it: only the body matters, and a
body may be absent (`typeof comment?.body === "string"` is checked). -/
structure Comment where
  body : Option (List Char)
deriving DecidableEq

/-- The scripts' test `typeof comment?.body === "string" && comment.body.includes(marker)`
(also the shape of the LinkBot test `comment.body?.includes(marker)`). -/
def commentHasMarker (c : Comment) (marker : List Char) : Bool :=
  match c.body with
  | some b => listIncludes marker b
  | none => false

def MAX_COMMENTS_TO_SCAN : Nat := 500

/-- The scan loop shared by both protobuf guards.  `scanned` counts the
comments already consumed; for each comment the marker test comes first,
then the cap test on the incremented count.  `atCap` is the value the
variant returns when the cap is reached (`true` in the first script,
`false` in the second) and is the single point where the two loops
differ.  `none` means the listing was exhausted without a decision. -/
def scanComments (atCap : Bool) (marker : List Char) : Nat → List Comment → Option Bool
  | _, [] => none
  | scanned, c :: rest =>
      if commentHasMarker c marker then some true
      else if MAX_COMMENTS_TO_SCAN ≤ scanned + 1 then some atCap
      else scanComments atCap marker (scanned + 1) rest

/-- Outcome of the paginated comment listing: either all comments, or a
transport/API error thrown after some prefix of pages was delivered. -/
inductive ListingOutcome where
  | ok (comments : List Comment)
  | errAfter (status : Option Nat) (delivered : List Comment)
deriving DecidableEq

/-- A log entry produced by the guard's `catch` branch; it carries the
identifying context the scripts log. -/
structure GuardLog where
  message : List Char
  status : Option Nat
  owner : List Char
  repo : List Char
  issueNumber : Nat
deriving DecidableEq

def guardFailMessage : List Char :=
  "Failed while checking existing protobuf trigger comments:".data

/-- Function `hasExistingTriggerComment`, parameterised by the two fallback
booleans in which the scripts differ: `atCap` for the bounded-scan exit
and `errFallback` for the `catch` branch.  On an error the comments
delivered before the failure have already been scanned (the loop returns
from inside `try` as soon as it decides). -/
def guardScan (atCap errFallback : Bool) (owner repo : List Char) (issueNumber : Nat)
    (listing : ListingOutcome) (marker : List Char) : Bool × List GuardLog :=
  match listing with
  | .ok cs =>
      match scanComments atCap marker 0 cs with
      | some b => (b, [])
      | none => (false, [])
  | .errAfter status cs =>
      match scanComments atCap marker 0 cs with
      | some b => (b, [])
      | none => (errFallback, [⟨guardFailMessage, status, owner, repo, issueNumber⟩])

namespace Proto1

def MARKER_PREFIX : List Char := "<!-- CodeRabbit Protobuf Review Trigger:".data

/-- The marker computed by the first script's `main`:
`` `${MARKER_PREFIX} ${headSha} -->` ``. -/
def markerFor (headSha : List Char) : List Char :=
  MARKER_PREFIX ++ (' ' :: headSha) ++ (" -->".data)

/-- First variant of `hasExistingTriggerComment`: fail-closed — returns
`true` both at the scan cap and on a listing error. -/
def hasExistingTriggerComment (owner repo : List Char) (issueNumber : Nat)
    (listing : ListingOutcome) (marker : List Char) : Bool × List GuardLog :=
  guardScan true true owner repo issueNumber listing marker

end Proto1

namespace Proto2

def MARKER_PREFIX : List Char := "<!-- CodeRabbit Protobuf Review Trigger:".data

/-- The marker computed by the second script's `main`:
`` `${MARKER_PREFIX} ${headSha} -->` ``. -/
def markerFor (headSha : List Char) : List Char :=
  MARKER_PREFIX ++ (' ' :: headSha) ++ (" -->".data)

/-- Second variant of `hasExistingTriggerComment`: fail-open — returns
`false` both at the scan cap and on a listing error. -/
def hasExistingTriggerComment (owner repo : List Char) (issueNumber : Nat)
    (listing : ListingOutcome) (marker : List Char) : Bool × List GuardLog :=
  guardScan false false owner repo issueNumber listing marker

end Proto2

def MAX_FILES_TO_LIST : Nat := 80

/-- Decimal rendering of a number interpolated into a template. -/
def natChars (n : Nat) : List Char := (Nat.repr n).data

/-- JavaScript `a || b` on strings: the default wins only when the first
operand is empty. -/
def jsOr (v d : List Char) : List Char := if v = [] then d else v

/-- The arguments of the first script's `buildCommentBody`. -/
structure BodyArgs1 where
  marker : List Char
  baseSha : List Char
  headSha : List Char
  changedFiles : List (List Char)
  diffSnippet : List Char
  truncated : Bool
  scopeMode : List Char
  scopeReason : List Char
  validationStatus : List Char
  validationChecks : List (List Char)
deriving DecidableEq

namespace Proto1

/-- Function `buildCommentBody` of the first script, transcribed from its template
literal; the body starts with the marker followed by a line feed. -/
def buildCommentBody (a : BodyArgs1) : List Char :=
  let fileLines := (a.changedFiles.take MAX_FILES_TO_LIST).map
    (fun f => ("- `".data) ++ f ++ ("`".data))
  let hiddenCount := a.changedFiles.length - MAX_FILES_TO_LIST
  let fileList :=
    if fileLines = [] then ("- (no .proto files changed in this PR)".data)
    else List.intercalate ("\n".data) fileLines
  let hiddenLine :=
    if 0 < hiddenCount then ("\n- ...and ".data) ++ natChars hiddenCount ++ (" more files".data)
    else []
  let truncatedSuffix := if a.truncated then (" (truncated)".data) else []
  let diffSection :=
    if jsTrim a.diffSnippet = [] then
      ("\nNo .proto diff was detected for this head commit.\n".data)
    else
      ("\nProtobuf contract diff excerpt".data) ++ truncatedSuffix ++ (":\n```diff\n".data)
        ++ a.diffSnippet ++ ("\n```\n".data)
  let checks :=
    if a.validationChecks = [] then
      [("buf lint".data),
       ("buf breaking --against \".git#ref=origin/main\"".data),
       ("buf build".data)]
    else a.validationChecks
  let validationSummary :=
    if a.validationStatus = ("skipped".data) then
      ("Protobuf contract validation was intentionally skipped for this pull request.\n\nReason:\n- No protobuf-impacting files changed, so buf lint/breaking/build were not required.".data)
    else
      ("Protobuf contract validation passed for this pull request.\n\nValidation checks passed:\n".data)
        ++ List.intercalate ("\n".data) (checks.map (fun c => ("- `".data) ++ c ++ ("`".data)))
  let reviewFocus :=
    if a.validationStatus = ("skipped".data) then
      ("Please perform a full review for this PR.\n\nProtobuf contract gate was skipped intentionally for this head commit because no protobuf-impacting files changed.\nIf you identify code changes that implicitly alter protobuf contracts, flag them explicitly.".data)
    else
      ("Please review this PR with a protobuf-first contract focus:\n- PR changes must comply with protobuf compatibility rules.\n- Do not allow field renumbering/reuse, enum value reuse, or incompatible type changes.\n- Flag package/service renames unless accompanied by a migration strategy.\n- Verify generated protobuf artifacts and application logic align with updated message/service definitions.".data)
  a.marker
    ++ ("\n@coderabbitai full review\n\n".data)
    ++ validationSummary
    ++ ("\n\n- Base commit: `".data) ++ a.baseSha
    ++ ("`\n- Head commit: `".data) ++ a.headSha
    ++ ("`\n- Changed .proto files: ".data) ++ natChars a.changedFiles.length
    ++ ("\n- Scope mode: `".data) ++ a.scopeMode ++ ("`\n".data)
    ++ (if a.scopeReason = [] then []
        else ("- Scope detail: ".data) ++ a.scopeReason ++ ("\n".data))
    ++ ("\n\n".data)
    ++ reviewFocus
    ++ ("\n\nChanged .proto files:\n".data)
    ++ fileList ++ hiddenLine ++ ("\n".data)
    ++ diffSection ++ ("\n".data)

end Proto1

/-- The arguments of the second script's `buildCommentBody`. -/
structure BodyArgs2 where
  marker : List Char
  baseSha : List Char
  headSha : List Char
  changedFiles : List (List Char)
  diffSnippet : List Char
  truncated : Bool
  scopeMode : List Char
  scopeReason : List Char
deriving DecidableEq

namespace Proto2

/-- Function `buildCommentBody` of the second script, transcribed from its
template literal; the body starts with the marker followed by a line
feed. -/
def buildCommentBody (a : BodyArgs2) : List Char :=
  let fileLines := (a.changedFiles.take MAX_FILES_TO_LIST).map
    (fun f => ("- `".data) ++ f ++ ("`".data))
  let hiddenCount := a.changedFiles.length - MAX_FILES_TO_LIST
  let fileList :=
    if fileLines = [] then ("- (unable to compute changed generated files)".data)
    else List.intercalate ("\n".data) fileLines
  let hiddenLine :=
    if 0 < hiddenCount then ("\n- ...and ".data) ++ natChars hiddenCount ++ (" more files".data)
    else []
  let truncatedSuffix := if a.truncated then (" (truncated)".data) else []
  a.marker
    ++ ("\n@coderabbitai full review\n\nGenerated protobuf build diff detected for this pull request.\n\n- Base commit: `".data)
    ++ a.baseSha
    ++ ("`\n- Head commit: `".data) ++ a.headSha
    ++ ("`\n- Generated protobuf files changed: ".data) ++ natChars a.changedFiles.length
    ++ ("\n- Scope mode: `".data) ++ a.scopeMode ++ ("`\n".data)
    ++ (if a.scopeReason = [] then []
        else ("- Scope detail: ".data) ++ a.scopeReason ++ ("\n".data))
    ++ ("\n\nPlease review this PR with focus on whether code changes remain aligned with these generated protobuf artifacts.\n\nChanged generated protobuf files:\n".data)
    ++ fileList ++ hiddenLine
    ++ ("\n\nGenerated protobuf diff excerpt".data) ++ truncatedSuffix ++ (":\n```diff\n".data)
    ++ a.diffSnippet ++ ("\n```\n".data)

end Proto2

/-- Function `readTextFileOrEmpty`: empty path or missing file yields the empty
string; the file system is a map from path to optional content. -/
def readTextFileOrEmpty (filePath : List Char) (fsm : List Char → Option (List Char)) : List Char :=
  if filePath = [] then []
  else
    match fsm filePath with
    | some content => content
    | none => []

/-- Model of `(process.env.PROTOBUF_VALIDATION_CHECKS || "").replace(/,/g, "\n")`. -/
def replaceCommasWithNL (l : List Char) : List Char :=
  l.map (fun c => if c = ',' then '\n' else c)

/-- Model of `context.repo` plus `context.payload?.pull_request?.number`. -/
structure RepoCtx where
  owner : List Char
  repo : List Char
  prNumber : Option Nat
deriving DecidableEq

/-- The environment variables read by the protobuf scripts; an absent
variable is the empty string (`process.env.X || "..."`). -/
structure ProtoEnv where
  baseSha : List Char
  headSha : List Char
  diffPath : List Char
  filesPath : List Char
  scopeMode : List Char
  scopeReason : List Char
  validationStatus : List Char
  validationChecksRaw : List Char
  dryRunRaw : List Char
deriving DecidableEq

/-- Model of `(process.env.DRY_RUN || "false").toLowerCase() === "true"`. -/
def isDryRunEnv (e : ProtoEnv) : Bool :=
  (jsOr e.dryRunRaw ("false".data)).map Char.toLower = ("true".data)

/-- Outcome of one invocation: a comment was created with the given
body, a normal completion without a comment (logged no-op paths and
swallowed posting failures), or a propagated fault (the thrown error's
HTTP status when it has one). -/
inductive RunResult where
  | posted (body : List Char)
  | noop
  | fault (status : Option Nat)
deriving DecidableEq

/-- The posting step shared verbatim by both protobuf scripts:
`createTriggerComment` inside `try`, whose `catch` swallows status 403
and 404 (`return`, a logged no-op) and rethrows anything else. -/
def postOutcomeResult (postOutcome : Option Nat) (body : List Char) : RunResult :=
  match postOutcome with
  | none => .posted body
  | some s => if s = 403 ∨ s = 404 then .noop else .fault (some s)

namespace Proto1

/-- The `buildCommentBody` argument record assembled by the first
script's `main` from the environment and the two input files. -/
def mainBodyArgs (env : ProtoEnv) (fsm : List Char → Option (List Char)) : BodyArgs1 :=
  let fullDiff := readTextFileOrEmpty env.diffPath fsm
  let tr := truncateDiff fullDiff MAX_DIFF_CHARS
  { marker := markerFor env.headSha
    baseSha := env.baseSha
    headSha := env.headSha
    changedFiles := parseUniqueLines (readTextFileOrEmpty env.filesPath fsm)
    diffSnippet := tr.text
    truncated := tr.truncated
    scopeMode := jsOr env.scopeMode ("full".data)
    scopeReason := env.scopeReason
    validationStatus := jsOr env.validationStatus ("passed".data)
    validationChecks := parseUniqueLines (replaceCommasWithNL env.validationChecksRaw) }

/-- Function `main` of the first protobuf script.  External effects are inputs:
`fsm` the file system, `listing` the outcome of the paginated comment
listing, `postOutcome` the outcome of `createComment` (`none` = success,
`some s` = rejection with HTTP status `s`). -/
def main (ctx : RepoCtx) (env : ProtoEnv) (fsm : List Char → Option (List Char))
    (listing : ListingOutcome) (postOutcome : Option Nat) : RunResult :=
  match ctx.prNumber with
  | none => .noop
  | some prNumber =>
    if env.baseSha = [] ∨ env.headSha = [] ∨ env.filesPath = [] then .noop
    else
      if (hasExistingTriggerComment ctx.owner ctx.repo prNumber listing
            (markerFor env.headSha)).1 then .noop
      else
        let body := buildCommentBody (mainBodyArgs env fsm)
        if isDryRunEnv env then .noop
        else postOutcomeResult postOutcome body

end Proto1

namespace Proto2

/-- The `buildCommentBody` argument record assembled by the second
script's `main` from the environment and the two input files. -/
def mainBodyArgs (env : ProtoEnv) (fsm : List Char → Option (List Char)) : BodyArgs2 :=
  let fullDiff := readTextFileOrEmpty env.diffPath fsm
  let tr := truncateDiff fullDiff MAX_DIFF_CHARS
  { marker := markerFor env.headSha
    baseSha := env.baseSha
    headSha := env.headSha
    changedFiles := parseUniqueLines (readTextFileOrEmpty env.filesPath fsm)
    diffSnippet := tr.text
    truncated := tr.truncated
    scopeMode := jsOr env.scopeMode ("full".data)
    scopeReason := env.scopeReason }

/-- Function `main` of the second protobuf script: additionally requires the diff
path and skips when the diff file content is blank. -/
def main (ctx : RepoCtx) (env : ProtoEnv) (fsm : List Char → Option (List Char))
    (listing : ListingOutcome) (postOutcome : Option Nat) : RunResult :=
  match ctx.prNumber with
  | none => .noop
  | some prNumber =>
    if env.baseSha = [] ∨ env.headSha = [] ∨ env.diffPath = [] ∨ env.filesPath = [] then .noop
    else
      if jsTrim (readTextFileOrEmpty env.diffPath fsm) = [] then .noop
      else
        if (hasExistingTriggerComment ctx.owner ctx.repo prNumber listing
              (markerFor env.headSha)).1 then .noop
        else
          let body := buildCommentBody (mainBodyArgs env fsm)
          if isDryRunEnv env then .noop
          else postOutcomeResult postOutcome body

end Proto2

namespace LinkBot

def LINKBOT_MISSING_ISSUE_MARKER : List Char := "<!-- LinkBot Missing Issue -->".data

/-- Model of `prData.user` as the script reads it (`user?.type`, `user?.login`). -/
structure PrUser where
  type? : Option (List Char)
  login? : Option (List Char)
deriving DecidableEq

/-- The pull-request data the script needs. -/
structure PrData where
  number : Nat
  user? : Option PrUser
deriving DecidableEq

/-- A node of `closingIssuesReferences`. -/
structure IssueRef where
  number : Nat
  state : List Char
deriving DecidableEq

/-- Function `getLinkedOpenIssues`: filters the returned references to the `OPEN`
state; its own `catch` converts any query error into `null` (`none`). -/
def getLinkedOpenIssues (raw : Except Unit (List IssueRef)) : Option (List IssueRef) :=
  match raw with
  | .ok nodes => some (nodes.filter (fun i => decide (i.state = ("OPEN".data))))
  | .error _ => none

/-- The script's `alreadyCommentedMissingIssue` check, applied to the
page of comments the single unpaginated `listComments` call returned. -/
def alreadyCommentedMissingIssue (page : List Comment) : Bool :=
  page.any (fun c => commentHasMarker c LINKBOT_MISSING_ISSUE_MARKER)

/-- Model of `authorType === "Bot" || authorLogin?.endsWith('[bot]')`. -/
def isBotAuthor (pr : PrData) : Bool :=
  (match pr.user? with
   | some u => decide (u.type? = some ("Bot".data))
   | none => false)
  || (match pr.user? with
      | some u =>
        match u.login? with
        | some l => ("[bot]".data).isSuffixOf l
        | none => false
      | none => false)

/-- Model of `const safeAuthor = authorLogin ?? 'there'`. -/
def safeAuthor (pr : PrData) : List Char :=
  match pr.user? with
  | some u =>
    match u.login? with
    | some l => l
    | none => "there".data
  | none => "there".data

/-- The reminder comment body: the script joins its line array with
line feeds; the first array element is the marker directly concatenated
with the greeting (no separator). -/
def commentBody (owner repo author : List Char) : List Char :=
  List.intercalate ("\n".data)
    [ LINKBOT_MISSING_ISSUE_MARKER ++ ("Hi @".data) ++ author ++ (", this is **LinkBot** 👋".data),
      [],
      ("Linking pull requests to issues helps us significantly with reviewing pull requests and keeping the repository healthy.".data),
      [],
      ("🚨 **This pull request does not have an issue linked.**".data),
      ("If this PR remains unlinked, it will be automatically closed.".data),
      [],
      ("Please link an issue using the following format:".data),
      ("```".data),
      ("Fixes #123".data),
      ("```".data),
      [],
      ("📖 Guide:".data),
      ("[docs/sdk_developers/how_to_link_issues.md](https://github.com/".data) ++ owner ++ ("/".data) ++ repo ++ ("/blob/main/docs/sdk_developers/how_to_link_issues.md)".data),
      [],
      ("If no issue exists yet, please create one:".data),
      ("[docs/sdk_developers/creating_issues.md](https://github.com/".data) ++ owner ++ ("/".data) ++ repo ++ ("/blob/main/docs/sdk_developers/creating_issues.md)".data),
      [],
      ("Thanks!".data) ]

/-- The inputs of one LinkBot invocation.  External calls appear as
their outcomes: `fetchResult` for `pulls.get` (used only when the
triggering payload has no pull request), `pageSize` and `store` for the
single unpaginated `listComments` call (the server returns only the
first page of `store`; GitHub's default page size is 30),
`listOutcome` for a listing failure, `linkedRaw` for the GraphQL query,
`postOutcome` for `createComment`. -/
structure Inputs where
  owner : List Char
  repo : List Char
  envPrNumber : Option Nat
  payloadPr : Option PrData
  fetchResult : Except (Option Nat) PrData
  pageSize : Nat
  store : List Comment
  listOutcome : Option (Option Nat)
  linkedRaw : Except Unit (List IssueRef)
  dryRun : Bool
  postOutcome : Option Nat

/-- Model of `Number(process.env.PR_NUMBER) || context.payload.pull_request?.number`,
with `0`/`NaN` falsy as in JavaScript. -/
def prNumberResolved (inp : Inputs) : Option Nat :=
  let fromEnv : Option Nat :=
    match inp.envPrNumber with
    | some n => if n = 0 then none else some n
    | none => none
  match fromEnv with
  | some n => some n
  | none =>
    match inp.payloadPr with
    | some pr => if pr.number = 0 then none else some pr.number
    | none => none

/-- Model of `context.payload.pull_request` if present, otherwise the result of
the `pulls.get` fetch. -/
def resolvePrData (inp : Inputs) : Except (Option Nat) PrData :=
  match inp.payloadPr with
  | some pr => .ok pr
  | none => inp.fetchResult

/-- The exported handler of the missing-linked-issue script.  Its whole
body sits in a `try` whose `catch` logs and rethrows, so every thrown
error — including the explicit `throw` when no PR number resolves and
any `createComment` rejection — propagates as a fault. -/
def main (inp : Inputs) : RunResult :=
  match prNumberResolved inp with
  | none => .fault none
  | some _ =>
    match resolvePrData inp with
    | .error s => .fault s
    | .ok prData =>
      if isBotAuthor prData then .noop
      else
        match inp.listOutcome with
        | some s => .fault s
        | none =>
          let already := alreadyCommentedMissingIssue (inp.store.take inp.pageSize)
          match getLinkedOpenIssues inp.linkedRaw with
          | none => .noop
          | some linked =>
            if linked.length = 0 then
              if already then .noop
              else
                let body := commentBody inp.owner inp.repo (safeAuthor prData)
                if inp.dryRun then .noop
                else
                  match inp.postOutcome with
                  | none => .posted body
                  | some s => .fault (some s)
            else .noop

end LinkBot

/-- The trimmed, non-blank lines of a text, duplicates included — the
intermediate stream the `parseUniqueLines` loop deduplicates. -/
def processedLines (t : List Char) : List (List Char) :=
  ((splitRN t).map jsTrim).filter (fun l => decide (l ≠ []))

/-- Canonical first-occurrence deduplication, the order requirement of
the specification: keep each element's first occurrence, drop later
ones. -/
def keepFirsts : List (List Char) → List (List Char)
  | [] => []
  | l :: rest => l :: (keepFirsts rest).filter (fun x => decide (x ≠ l))

/-! Concrete instances used by witnesses and counterexamples. -/

def wCtx : RepoCtx := ⟨"o".data, "r".data, some 1⟩

def wEnv : ProtoEnv := ⟨"b".data, "h".data, "d".data, "f".data, [], [], [], [], []⟩

def wFs : List Char → Option (List Char) := fun _ => some ("+ x".data)

def wFillers : List Comment := List.replicate 500 ⟨some ("x".data)⟩

def wStore31 : List Comment :=
  (List.replicate 30 (⟨some ("x".data)⟩ : Comment)) ++ [⟨some LinkBot.LINKBOT_MISSING_ISSUE_MARKER⟩]

def wPrHuman : LinkBot.PrData := ⟨7, some ⟨some ("User".data), some ("alice".data)⟩⟩

def wPrBot : LinkBot.PrData := ⟨7, some ⟨some ("User".data), some ("renovate[bot]".data)⟩⟩

def wLinkBase : LinkBot.Inputs :=
  { owner := "o".data, repo := "r".data, envPrNumber := none, payloadPr := some wPrHuman,
    fetchResult := .error none, pageSize := 30, store := [], listOutcome := none,
    linkedRaw := .ok [], dryRun := false, postOutcome := none }

def wLinkBot : LinkBot.Inputs := { wLinkBase with payloadPr := some wPrBot }

def wLinkNoPr : LinkBot.Inputs :=
  { wLinkBase with payloadPr := none, fetchResult := .ok wPrHuman }

def wLink403 : LinkBot.Inputs := { wLinkBase with postOutcome := some 403 }



theorem listIncludes_iff (needle hay : List Char) :
    listIncludes needle hay = true ↔ needle <:+: hay := by
  induction hay with
  | nil => simp [listIncludes, List.isEmpty_iff, List.infix_nil]
  | cons c rest ih =>
      simp [listIncludes, Bool.or_eq_true, List.isPrefixOf_iff_prefix, ih,
        List.infix_cons_iff]

theorem listIncludes_append_right (m t : List Char) :
    listIncludes m (m ++ t) = true :=
  (listIncludes_iff m (m ++ t)).mpr (List.prefix_append m t).isInfix

theorem scanComments_append (fb : Bool) (m : List Char) (ys : List Comment)
    (xs : List Comment) : ∀ (k : Nat),
      scanComments fb m k (xs ++ ys) =
        match scanComments fb m k xs with
        | some b => some b
        | none => scanComments fb m (k + xs.length) ys := by
  induction xs with
  | nil => intro k; simp [scanComments]
  | cons c rest ih =>
      intro k
      by_cases h1 : commentHasMarker c m
      · simp [scanComments, h1]
      · by_cases h2 : MAX_COMMENTS_TO_SCAN ≤ k + 1
        · simp [scanComments, h1, h2]
        · have harith : k + (c :: rest).length = k + 1 + rest.length := by
            simp [List.length_cons]
            omega
          simp only [List.cons_append, scanComments, if_neg h1, if_neg h2, harith]
          exact ih (k + 1)

theorem scanComments_eq_none_iff (fb : Bool) (m : List Char) (cs : List Comment) :
    ∀ (k : Nat),
      scanComments fb m k cs = none ↔
        (∀ c ∈ cs, commentHasMarker c m = false) ∧
          (cs = [] ∨ k + cs.length ≤ MAX_COMMENTS_TO_SCAN - 1) := by
  induction cs with
  | nil => intro k; simp [scanComments]
  | cons c rest ih =>
      intro k
      by_cases h1 : commentHasMarker c m
      · simp [scanComments, h1]
      · by_cases h2 : MAX_COMMENTS_TO_SCAN ≤ k + 1
        · simp only [scanComments, if_neg h1, if_pos h2]
          simp only [MAX_COMMENTS_TO_SCAN] at h2 ⊢
          simp [List.forall_mem_cons, List.length_cons]
          omega
        · simp only [scanComments, if_neg h1, if_neg h2, ih (k + 1)]
          simp only [MAX_COMMENTS_TO_SCAN] at h2 ⊢
          simp [List.forall_mem_cons, List.length_cons, h1]
          intro _
          constructor
          · rintro (hr | hlen)
            · subst hr; simp; omega
            · omega
          · intro hlen
            right
            omega

theorem scanComments_eq_some (fb : Bool) (m : List Char) (cs : List Comment) :
    ∀ (k : Nat) (b : Bool), scanComments fb m k cs = some b →
      b = true ∨ (b = fb ∧ MAX_COMMENTS_TO_SCAN ≤ k + cs.length) := by
  induction cs with
  | nil => intro k b h; simp [scanComments] at h
  | cons c rest ih =>
      intro k b h
      by_cases h1 : commentHasMarker c m
      · simp [scanComments, h1] at h
        exact Or.inl h
      · by_cases h2 : MAX_COMMENTS_TO_SCAN ≤ k + 1
        · simp [scanComments, h1, h2] at h
          right
          constructor
          · exact h.symm
          · simp [List.length_cons]
            omega
        · simp only [scanComments, if_neg h1, if_neg h2] at h
          rcases ih (k + 1) b h with ht | ⟨hb, hlen⟩
          · exact Or.inl ht
          · right
            refine ⟨hb, ?_⟩
            simp [List.length_cons]
            omega

theorem scanComments_cap (fb : Bool) (m : List Char) (cs : List Comment) :
    ∀ (k : Nat), k + 1 ≤ MAX_COMMENTS_TO_SCAN → MAX_COMMENTS_TO_SCAN ≤ k + cs.length →
      (∀ c ∈ cs.take (MAX_COMMENTS_TO_SCAN - k), commentHasMarker c m = false) →
      scanComments fb m k cs = some fb := by
  induction cs with
  | nil =>
      intro k hk hlen _
      simp [MAX_COMMENTS_TO_SCAN] at hk hlen
      omega
  | cons c rest ih =>
      intro k hk hlen hclean
      have htake : (c :: rest).take (MAX_COMMENTS_TO_SCAN - k) =
          c :: rest.take (MAX_COMMENTS_TO_SCAN - (k + 1)) := by
        have h5 : MAX_COMMENTS_TO_SCAN - k = (MAX_COMMENTS_TO_SCAN - (k + 1)) + 1 := by
          simp [MAX_COMMENTS_TO_SCAN] at hk ⊢
          omega
        rw [h5, List.take_succ_cons]
      have hc : commentHasMarker c m = false := by
        apply hclean
        rw [htake]
        exact List.mem_cons_self c _
      by_cases h2 : MAX_COMMENTS_TO_SCAN ≤ k + 1
      · simp [scanComments, hc, h2]
      · simp only [scanComments, hc, Bool.false_eq_true, if_false, if_neg h2]
        apply ih (k + 1)
        · omega
        · simp [List.length_cons] at hlen
          omega
        · intro x hx
          apply hclean
          rw [htake]
          exact List.mem_cons_of_mem c hx

theorem scanComments_found (m : List Char) (fb : Bool) (cs : List Comment) :
    ∀ (k i : Nat), i < cs.length → k + i + 1 ≤ MAX_COMMENTS_TO_SCAN →
      commentHasMarker (cs.getD i ⟨none⟩) m = true →
      scanComments fb m k cs = some true := by
  induction cs with
  | nil => intro k i hi; simp at hi
  | cons c rest ih =>
      intro k i hi hcap hmark
      match i with
      | 0 =>
          simp [List.getD] at hmark
          simp [scanComments, hmark]
      | j + 1 =>
          by_cases h1 : commentHasMarker c m
          · simp [scanComments, h1]
          · have h2 : ¬ MAX_COMMENTS_TO_SCAN ≤ k + 1 := by
              simp [MAX_COMMENTS_TO_SCAN] at hcap ⊢
              omega
            simp only [scanComments, if_neg h1, if_neg h2]
            apply ih (k + 1) j
            · simp [List.length_cons] at hi
              omega
            · omega
            · simpa [List.getD] using hmark

theorem scanComments_take (fb : Bool) (m : List Char) (cs : List Comment) :
    ∀ (k : Nat), k + 1 ≤ MAX_COMMENTS_TO_SCAN →
      scanComments fb m k cs = scanComments fb m k (cs.take (MAX_COMMENTS_TO_SCAN - k)) := by
  induction cs with
  | nil => intro k _; simp
  | cons c rest ih =>
      intro k hk
      have htake : (c :: rest).take (MAX_COMMENTS_TO_SCAN - k) =
          c :: rest.take (MAX_COMMENTS_TO_SCAN - (k + 1)) := by
        have h5 : MAX_COMMENTS_TO_SCAN - k = (MAX_COMMENTS_TO_SCAN - (k + 1)) + 1 := by
          simp [MAX_COMMENTS_TO_SCAN] at hk ⊢
          omega
        rw [h5, List.take_succ_cons]
      rw [htake]
      by_cases h1 : commentHasMarker c m
      · simp [scanComments, h1]
      · by_cases h2 : MAX_COMMENTS_TO_SCAN ≤ k + 1
        · simp [scanComments, h1, h2]
        · simp only [scanComments, if_neg h1, if_neg h2]
          exact ih (k + 1) (by omega)

theorem lastIndexOfNL_lt_length (l : List Char) :
    ∀ (i : Nat), lastIndexOfNL l = some i → i < l.length := by
  induction l with
  | nil => intro i h; simp [lastIndexOfNL] at h
  | cons c rest ih =>
      intro i h
      simp only [lastIndexOfNL] at h
      match hr : lastIndexOfNL rest with
      | some j =>
          rw [hr] at h
          simp at h
          have := ih j hr
          simp [List.length_cons]
          omega
      | none =>
          rw [hr] at h
          by_cases hc : c = '\n'
          · simp [hc] at h
            simp [List.length_cons]
            omega
          · simp [hc] at h

theorem lastIndexOfNL_spec (l : List Char) :
    ∀ (i : Nat), lastIndexOfNL l = some i → l[i]? = some '\n' := by
  induction l with
  | nil => intro i h; simp [lastIndexOfNL] at h
  | cons c rest ih =>
      intro i h
      simp only [lastIndexOfNL] at h
      match hr : lastIndexOfNL rest with
      | some j =>
          rw [hr] at h
          simp at h
          subst h
          simpa using ih j hr
      | none =>
          rw [hr] at h
          by_cases hc : c = '\n'
          · simp [hc] at h
            subst h
            simp [hc]
          · simp [hc] at h

set_option maxRecDepth 8000 in
theorem proto1_marker_prefix_body (a : BodyArgs1) :
    a.marker <+: Proto1.buildCommentBody a := by
  dsimp only [Proto1.buildCommentBody]
  simp only [List.append_assoc]
  exact List.prefix_append _ _

set_option maxRecDepth 8000 in
theorem proto2_marker_prefix_body (a : BodyArgs2) :
    a.marker <+: Proto2.buildCommentBody a := by
  dsimp only [Proto2.buildCommentBody]
  simp only [List.append_assoc]
  exact List.prefix_append _ _

set_option maxRecDepth 8000 in
theorem linkbot_marker_prefix_body (owner repo author : List Char) :
    LinkBot.LINKBOT_MISSING_ISSUE_MARKER <+: LinkBot.commentBody owner repo author := by
  dsimp only [LinkBot.commentBody, List.intercalate]
  simp only [List.intersperse, List.flatten, List.append_assoc]
  exact List.prefix_append _ _

theorem proto1_guard_ok_false {o r : List Char} {n : Nat} {cs : List Comment} {m : List Char}
    (h : (Proto1.hasExistingTriggerComment o r n (.ok cs) m).1 = false) :
    scanComments true m 0 cs = none := by
  dsimp only [Proto1.hasExistingTriggerComment, guardScan] at h
  rcases h' : scanComments true m 0 cs with _ | b
  · rfl
  · rw [h'] at h
    simp at h
    rcases scanComments_eq_some true m cs 0 b h' with ht | ⟨hb, _⟩
    · rw [ht] at h
      simp at h
    · rw [hb] at h
      simp at h

theorem proto2_guard_ok_false {o r : List Char} {n : Nat} {cs : List Comment} {m : List Char}
    (h : (Proto2.hasExistingTriggerComment o r n (.ok cs) m).1 = false)
    (hlen : cs.length + 1 ≤ MAX_COMMENTS_TO_SCAN) :
    scanComments false m 0 cs = none := by
  dsimp only [Proto2.hasExistingTriggerComment, guardScan] at h
  rcases h' : scanComments false m 0 cs with _ | b
  · rfl
  · rw [h'] at h
    simp at h
    rcases scanComments_eq_some false m cs 0 b h' with ht | ⟨hb, hcap⟩
    · rw [ht] at h
      simp at h
    · simp [MAX_COMMENTS_TO_SCAN] at hcap hlen
      omega

theorem guard_after_post (fb atErr : Bool) (o r : List Char) (n : Nat) (cs : List Comment)
    (m b : List Char) (hscan : scanComments fb m 0 cs = none) (hb : listIncludes m b = true) :
    guardScan fb atErr o r n (.ok (cs ++ [⟨some b⟩])) m = (true, []) := by
  dsimp only [guardScan]
  rw [scanComments_append fb m [⟨some b⟩] cs 0, hscan]
  have hone : scanComments fb m (0 + cs.length) [⟨some b⟩] = some true := by
    simp [scanComments, commentHasMarker, hb]
  simp only [hone]

theorem proto1_main_eval (ctx : RepoCtx) (env : ProtoEnv)
    (fsm : List Char → Option (List Char)) (listing : ListingOutcome) (post : Option Nat)
    (n : Nat) (hn : ctx.prNumber = some n)
    (hb : env.baseSha ≠ []) (hh : env.headSha ≠ []) (hf : env.filesPath ≠ [])
    (hg : (Proto1.hasExistingTriggerComment ctx.owner ctx.repo n listing
            (Proto1.markerFor env.headSha)).1 = false)
    (hdry : isDryRunEnv env = false) :
    Proto1.main ctx env fsm listing post =
      postOutcomeResult post (Proto1.buildCommentBody (Proto1.mainBodyArgs env fsm)) := by
  simp only [Proto1.main, hn]
  rw [if_neg (show ¬(env.baseSha = [] ∨ env.headSha = [] ∨ env.filesPath = []) by
    simp [hb, hh, hf])]
  rw [if_neg (show ¬((Proto1.hasExistingTriggerComment ctx.owner ctx.repo n listing
      (Proto1.markerFor env.headSha)).1 = true) by simp [hg])]
  rw [if_neg (show ¬(isDryRunEnv env = true) by simp [hdry])]

theorem proto2_main_eval (ctx : RepoCtx) (env : ProtoEnv)
    (fsm : List Char → Option (List Char)) (listing : ListingOutcome) (post : Option Nat)
    (n : Nat) (hn : ctx.prNumber = some n)
    (hb : env.baseSha ≠ []) (hh : env.headSha ≠ []) (hd : env.diffPath ≠ [])
    (hf : env.filesPath ≠ [])
    (hdiff : jsTrim (readTextFileOrEmpty env.diffPath fsm) ≠ [])
    (hg : (Proto2.hasExistingTriggerComment ctx.owner ctx.repo n listing
            (Proto2.markerFor env.headSha)).1 = false)
    (hdry : isDryRunEnv env = false) :
    Proto2.main ctx env fsm listing post =
      postOutcomeResult post (Proto2.buildCommentBody (Proto2.mainBodyArgs env fsm)) := by
  simp only [Proto2.main, hn]
  rw [if_neg (show ¬(env.baseSha = [] ∨ env.headSha = [] ∨ env.diffPath = [] ∨
      env.filesPath = []) by simp [hb, hh, hd, hf])]
  rw [if_neg hdiff]
  rw [if_neg (show ¬((Proto2.hasExistingTriggerComment ctx.owner ctx.repo n listing
      (Proto2.markerFor env.headSha)).1 = true) by simp [hg])]
  rw [if_neg (show ¬(isDryRunEnv env = true) by simp [hdry])]

theorem proto1_main_noop_guard_true (ctx : RepoCtx) (env : ProtoEnv)
    (fsm : List Char → Option (List Char)) (listing : ListingOutcome) (post : Option Nat)
    (n : Nat) (hn : ctx.prNumber = some n)
    (hg : (Proto1.hasExistingTriggerComment ctx.owner ctx.repo n listing
            (Proto1.markerFor env.headSha)).1 = true) :
    Proto1.main ctx env fsm listing post = .noop := by
  simp only [Proto1.main, hn]
  by_cases henv : env.baseSha = [] ∨ env.headSha = [] ∨ env.filesPath = []
  · rw [if_pos henv]
  · rw [if_neg henv, if_pos hg]

theorem proto2_main_noop_guard_true (ctx : RepoCtx) (env : ProtoEnv)
    (fsm : List Char → Option (List Char)) (listing : ListingOutcome) (post : Option Nat)
    (n : Nat) (hn : ctx.prNumber = some n)
    (hg : (Proto2.hasExistingTriggerComment ctx.owner ctx.repo n listing
            (Proto2.markerFor env.headSha)).1 = true) :
    Proto2.main ctx env fsm listing post = .noop := by
  simp only [Proto2.main, hn]
  by_cases henv : env.baseSha = [] ∨ env.headSha = [] ∨ env.diffPath = [] ∨ env.filesPath = []
  · rw [if_pos henv]
  · rw [if_neg henv]
    by_cases hdiff : jsTrim (readTextFileOrEmpty env.diffPath fsm) = []
    · rw [if_pos hdiff]
    · rw [if_neg hdiff, if_pos hg]

theorem proto1_mainBodyArgs_marker (env : ProtoEnv) (fsm : List Char → Option (List Char)) :
    (Proto1.mainBodyArgs env fsm).marker = Proto1.markerFor env.headSha := rfl

theorem proto2_mainBodyArgs_marker (env : ProtoEnv) (fsm : List Char → Option (List Char)) :
    (Proto2.mainBodyArgs env fsm).marker = Proto2.markerFor env.headSha := rfl

/-- Claim C1 (amended): running a protobuf notifier twice against a
comment store that gained the first run's comment yields exactly one
comment.  Unconditional for the fail-closed first variant; for the
fail-open second variant it holds provided the store stays within the
500-comment scan cap. -/
theorem claim_C1_amended (ctx : RepoCtx) (env : ProtoEnv)
    (fsm : List Char → Option (List Char)) (cs : List Comment) (n : Nat)
    (hn : ctx.prNumber = some n) (hb : env.baseSha ≠ []) (hh : env.headSha ≠ [])
    (hf : env.filesPath ≠ []) (hdry : isDryRunEnv env = false) :
    ((Proto1.hasExistingTriggerComment ctx.owner ctx.repo n (.ok cs)
        (Proto1.markerFor env.headSha)).1 = false →
      Proto1.main ctx env fsm (.ok cs) none =
        .posted (Proto1.buildCommentBody (Proto1.mainBodyArgs env fsm)) ∧
      Proto1.main ctx env fsm
          (.ok (cs ++ [⟨some (Proto1.buildCommentBody (Proto1.mainBodyArgs env fsm))⟩]))
          none = .noop) ∧
    (env.diffPath ≠ [] → jsTrim (readTextFileOrEmpty env.diffPath fsm) ≠ [] →
      cs.length + 1 ≤ MAX_COMMENTS_TO_SCAN →
      (Proto2.hasExistingTriggerComment ctx.owner ctx.repo n (.ok cs)
          (Proto2.markerFor env.headSha)).1 = false →
      Proto2.main ctx env fsm (.ok cs) none =
        .posted (Proto2.buildCommentBody (Proto2.mainBodyArgs env fsm)) ∧
      Proto2.main ctx env fsm
          (.ok (cs ++ [⟨some (Proto2.buildCommentBody (Proto2.mainBodyArgs env fsm))⟩]))
          none = .noop) := by
  constructor
  · intro hg1
    refine ⟨proto1_main_eval ctx env fsm (.ok cs) none n hn hb hh hf hg1 hdry, ?_⟩
    have hscan := proto1_guard_ok_false hg1
    have hincl : listIncludes (Proto1.markerFor env.headSha)
        (Proto1.buildCommentBody (Proto1.mainBodyArgs env fsm)) = true := by
      apply (listIncludes_iff _ _).mpr
      apply List.IsPrefix.isInfix
      have hp := proto1_marker_prefix_body (Proto1.mainBodyArgs env fsm)
      rwa [proto1_mainBodyArgs_marker] at hp
    apply proto1_main_noop_guard_true ctx env fsm _ none n hn
    dsimp only [Proto1.hasExistingTriggerComment]
    rw [guard_after_post true true ctx.owner ctx.repo n cs _ _ hscan hincl]
  · intro hd hdiff hlen hg2
    refine ⟨proto2_main_eval ctx env fsm (.ok cs) none n hn hb hh hd hf hdiff hg2 hdry, ?_⟩
    have hscan := proto2_guard_ok_false hg2 hlen
    have hincl : listIncludes (Proto2.markerFor env.headSha)
        (Proto2.buildCommentBody (Proto2.mainBodyArgs env fsm)) = true := by
      apply (listIncludes_iff _ _).mpr
      apply List.IsPrefix.isInfix
      have hp := proto2_marker_prefix_body (Proto2.mainBodyArgs env fsm)
      rwa [proto2_mainBodyArgs_marker] at hp
    apply proto2_main_noop_guard_true ctx env fsm _ none n hn
    dsimp only [Proto2.hasExistingTriggerComment]
    rw [guard_after_post false false ctx.owner ctx.repo n cs _ _ hscan hincl]

/-- Claim C1 witness: a concrete healthy run of each variant posts once
and its immediate re-run is a no-op. -/
theorem claim_C1_witness :
    (Proto1.main wCtx wEnv wFs (.ok []) none =
        .posted (Proto1.buildCommentBody (Proto1.mainBodyArgs wEnv wFs)) ∧
      Proto1.main wCtx wEnv wFs
          (.ok ([] ++ [⟨some (Proto1.buildCommentBody (Proto1.mainBodyArgs wEnv wFs))⟩]))
          none = .noop) ∧
    (Proto2.main wCtx wEnv wFs (.ok []) none =
        .posted (Proto2.buildCommentBody (Proto2.mainBodyArgs wEnv wFs)) ∧
      Proto2.main wCtx wEnv wFs
          (.ok ([] ++ [⟨some (Proto2.buildCommentBody (Proto2.mainBodyArgs wEnv wFs))⟩]))
          none = .noop) := by
  have h := claim_C1_amended wCtx wEnv wFs [] 1 rfl (by decide) (by decide) (by decide)
    (by decide)
  exact ⟨h.1 (by decide), h.2 (by decide) (by decide) (by decide) (by decide)⟩

set_option maxRecDepth 40000 in
/-- Claim C1 counterexample: with 500 marker-free comments already on
the PR, the fail-open second variant posts on the first run (its guard
hits the scan cap and reports "not posted") and posts again on the
second run over the store that now contains the first comment — two
created comments, refuting the claim as stated. -/
theorem claim_C1_cex :
    Proto2.main wCtx wEnv wFs (.ok wFillers) none =
      .posted (Proto2.buildCommentBody (Proto2.mainBodyArgs wEnv wFs)) ∧
    Proto2.main wCtx wEnv wFs
        (.ok (wFillers ++ [⟨some (Proto2.buildCommentBody (Proto2.mainBodyArgs wEnv wFs))⟩]))
        none =
      .posted (Proto2.buildCommentBody (Proto2.mainBodyArgs wEnv wFs)) := by
  constructor
  · decide
  · decide

/-- Claim C2: each guard variant applies one consistent fallback to both
uncertainty conditions.  On a listing error with an undecided delivered
prefix, the first variant reports `true` and the second `false`, both
logging the identifying context and returning normally; at the
500-comment cap without a marker the first reports `true`, the second
`false`. -/
theorem claim_C2 (o r : List Char) (n : Nat) (m : List Char) (s : Option Nat)
    (p cs : List Comment)
    (hpclean : ∀ c ∈ p, commentHasMarker c m = false)
    (hplen : p.length + 1 ≤ MAX_COMMENTS_TO_SCAN)
    (hcap : MAX_COMMENTS_TO_SCAN ≤ cs.length)
    (hcclean : ∀ c ∈ cs.take MAX_COMMENTS_TO_SCAN, commentHasMarker c m = false) :
    Proto1.hasExistingTriggerComment o r n (.errAfter s p) m =
        (true, [⟨guardFailMessage, s, o, r, n⟩]) ∧
    Proto2.hasExistingTriggerComment o r n (.errAfter s p) m =
        (false, [⟨guardFailMessage, s, o, r, n⟩]) ∧
    Proto1.hasExistingTriggerComment o r n (.ok cs) m = (true, []) ∧
    Proto2.hasExistingTriggerComment o r n (.ok cs) m = (false, []) := by
  have hpscan1 : scanComments true m 0 p = none :=
    (scanComments_eq_none_iff true m p 0).mpr ⟨hpclean, Or.inr (by omega)⟩
  have hpscan2 : scanComments false m 0 p = none :=
    (scanComments_eq_none_iff false m p 0).mpr ⟨hpclean, Or.inr (by omega)⟩
  have hcscan1 : scanComments true m 0 cs = some true :=
    scanComments_cap true m cs 0 (by decide) (by omega) (by simpa using hcclean)
  have hcscan2 : scanComments false m 0 cs = some false :=
    scanComments_cap false m cs 0 (by decide) (by omega) (by simpa using hcclean)
  refine ⟨?_, ?_, ?_, ?_⟩
  · dsimp only [Proto1.hasExistingTriggerComment, guardScan]
    rw [hpscan1]
  · dsimp only [Proto2.hasExistingTriggerComment, guardScan]
    rw [hpscan2]
  · dsimp only [Proto1.hasExistingTriggerComment, guardScan]
    rw [hcscan1]
  · dsimp only [Proto2.hasExistingTriggerComment, guardScan]
    rw [hcscan2]

set_option maxRecDepth 40000 in
/-- Claim C2 witness: concrete instances of the error fallback (empty
delivered prefix) and the cap fallback (500 marker-free comments). -/
theorem claim_C2_witness :
    Proto1.hasExistingTriggerComment ("o".data) ("r".data) 1 (.errAfter (some 500) [])
        ("M".data) =
      (true, [⟨guardFailMessage, some 500, "o".data, "r".data, 1⟩]) ∧
    Proto2.hasExistingTriggerComment ("o".data) ("r".data) 1 (.errAfter (some 500) [])
        ("M".data) =
      (false, [⟨guardFailMessage, some 500, "o".data, "r".data, 1⟩]) ∧
    Proto1.hasExistingTriggerComment ("o".data) ("r".data) 1 (.ok wFillers) ("M".data) =
      (true, []) ∧
    Proto2.hasExistingTriggerComment ("o".data) ("r".data) 1 (.ok wFillers) ("M".data) =
      (false, []) :=
  claim_C2 ("o".data) ("r".data) 1 ("M".data) (some 500) [] wFillers
    (by decide) (by decide) (by decide) (by decide)

/-- Claim C3 (amended): the two protobuf guards scan only the first 500
comments of the listing (the result is unchanged by dropping everything
beyond the cap) and report `true` whenever a comment within the cap
contains the marker; the missing-linked-issue check, however, inspects
only the single page returned by its one unpaginated listing call —
`true` exactly when some comment of that page contains its marker. -/
theorem claim_C3_amended (o r : List Char) (n : Nat) (m : List Char)
    (cs page : List Comment) :
    Proto1.hasExistingTriggerComment o r n (.ok cs) m =
        Proto1.hasExistingTriggerComment o r n (.ok (cs.take MAX_COMMENTS_TO_SCAN)) m ∧
    Proto2.hasExistingTriggerComment o r n (.ok cs) m =
        Proto2.hasExistingTriggerComment o r n (.ok (cs.take MAX_COMMENTS_TO_SCAN)) m ∧
    (∀ i, i < cs.length → i + 1 ≤ MAX_COMMENTS_TO_SCAN →
      commentHasMarker (cs.getD i ⟨none⟩) m = true →
      (Proto1.hasExistingTriggerComment o r n (.ok cs) m).1 = true ∧
      (Proto2.hasExistingTriggerComment o r n (.ok cs) m).1 = true) ∧
    (LinkBot.alreadyCommentedMissingIssue page = true ↔
      ∃ c ∈ page, commentHasMarker c LinkBot.LINKBOT_MISSING_ISSUE_MARKER = true) := by
  refine ⟨?_, ?_, ?_, ?_⟩
  · dsimp only [Proto1.hasExistingTriggerComment, guardScan]
    have ht := scanComments_take true m cs 0 (by decide)
    rw [Nat.sub_zero] at ht
    rw [ht]
  · dsimp only [Proto2.hasExistingTriggerComment, guardScan]
    have ht := scanComments_take false m cs 0 (by decide)
    rw [Nat.sub_zero] at ht
    rw [ht]
  · intro i hi hcap hmark
    have h1 : scanComments true m 0 cs = some true :=
      scanComments_found m true cs 0 i hi (by omega) hmark
    have h2 : scanComments false m 0 cs = some true :=
      scanComments_found m false cs 0 i hi (by omega) hmark
    constructor
    · dsimp only [Proto1.hasExistingTriggerComment, guardScan]
      rw [h1]
    · dsimp only [Proto2.hasExistingTriggerComment, guardScan]
      rw [h2]
  · dsimp only [LinkBot.alreadyCommentedMissingIssue]
    exact List.any_eq_true

/-- Claim C3 witness: the found-within-cap and page-characterisation
parts at a concrete store. -/
theorem claim_C3_witness :
    (Proto1.hasExistingTriggerComment ("o".data) ("r".data) 1 (.ok wStore31)
        LinkBot.LINKBOT_MISSING_ISSUE_MARKER).1 = true ∧
    (Proto2.hasExistingTriggerComment ("o".data) ("r".data) 1 (.ok wStore31)
        LinkBot.LINKBOT_MISSING_ISSUE_MARKER).1 = true :=
  (claim_C3_amended ("o".data) ("r".data) 1 LinkBot.LINKBOT_MISSING_ISSUE_MARKER
    wStore31 []).2.2.1 30 (by decide) (by decide) (by decide)

/-- Claim C3 counterexample: the marker sits on the 31st comment — well
inside any 500-comment scan, and found there by the protobuf guards —
but the missing-linked-issue check sees only the first listing page
(GitHub's default page size is 30) and misses it: that check neither
paginates nor scans up to 500 comments. -/
theorem claim_C3_cex :
    LinkBot.alreadyCommentedMissingIssue (wStore31.take 30) = false ∧
    commentHasMarker (wStore31.getD 30 ⟨none⟩) LinkBot.LINKBOT_MISSING_ISSUE_MARKER = true ∧
    wStore31.length ≤ MAX_COMMENTS_TO_SCAN ∧
    (Proto1.hasExistingTriggerComment ("o".data) ("r".data) 1 (.ok wStore31)
        LinkBot.LINKBOT_MISSING_ISSUE_MARKER).1 = true := by
  decide

/-- Claim C4 (amended): below the budget the text is returned unchanged
and unmarked.  Above the budget, when the slice of the first `maxChars`
characters contains a line feed at a positive index, the text is cut at
the last such line feed — the character of the source right after the
kept prefix is a line feed, the kept prefix is shorter than the budget —
and the fixed annotation is appended; when the slice has no line feed at
all, or its only last line feed sits at index `0` (the case the source's
`lineBreakIndex > 0` test sends to the fallback), the raw slice is kept
instead. -/
theorem claim_C4_amended (t : List Char) (maxChars : Nat) :
    (t.length ≤ maxChars → truncateDiff t maxChars = ⟨false, t⟩) ∧
    (maxChars < t.length →
      (∀ i, lastIndexOfNL (t.take maxChars) = some i → 0 < i →
        truncateDiff t maxChars = ⟨true, (t.take maxChars).take i ++ truncationNote⟩ ∧
        t[i]? = some '\n' ∧ i < maxChars ∧
        ((t.take maxChars).take i).length ≤ maxChars) ∧
      ((lastIndexOfNL (t.take maxChars) = none ∨ lastIndexOfNL (t.take maxChars) = some 0) →
        truncateDiff t maxChars = ⟨true, t.take maxChars ++ truncationNote⟩)) := by
  constructor
  · intro hle
    dsimp only [truncateDiff]
    rw [if_pos hle]
  · intro hgt
    have hnle : ¬ t.length ≤ maxChars := by omega
    constructor
    · intro i hlast hpos
      have hilen : i < (t.take maxChars).length := lastIndexOfNL_lt_length _ i hlast
      have himax : i < maxChars := by
        have := List.length_take maxChars t
        omega
      have hslice : (t.take maxChars)[i]? = some '\n' := lastIndexOfNL_spec _ i hlast
      have hsrc : t[i]? = some '\n' := by
        rw [List.getElem?_take] at hslice
        rwa [if_pos himax] at hslice
      refine ⟨?_, hsrc, himax, ?_⟩
      · dsimp only [truncateDiff]
        rw [if_neg hnle, hlast]
        dsimp only
        rw [if_pos hpos]
      · have := List.length_take i (t.take maxChars)
        have := List.length_take maxChars t
        omega
    · intro hcase
      dsimp only [truncateDiff]
      rw [if_neg hnle]
      rcases hcase with hnone | hzero
      · rw [hnone]
      · rw [hzero]
        dsimp only
        rw [if_neg (by omega)]

/-- Claim C4 witness: a budget-respecting input, a truncation cut at a
positive line-feed index, and a no-line-feed fallback. -/
theorem claim_C4_witness :
    truncateDiff ("ab".data) 5 = ⟨false, ("ab".data)⟩ ∧
    truncateDiff ("ab\ncd\nef".data) 7 = ⟨true, ("ab\ncd".data) ++ truncationNote⟩ ∧
    truncateDiff ("abcdef".data) 3 = ⟨true, ("abc".data) ++ truncationNote⟩ := by
  refine ⟨(claim_C4_amended ("ab".data) 5).1 (by decide), ?_, ?_⟩
  · have h := ((claim_C4_amended ("ab\ncd\nef".data) 7).2 (by decide)).1 5 (by decide)
      (by decide)
    exact h.1
  · exact ((claim_C4_amended ("abcdef".data) 3).2 (by decide)).2 (Or.inl (by decide))

/-- Claim C4 counterexample: `"\nab"` with budget `2` — the text exceeds
the budget and a line feed exists within the first two characters (at
index `0`), yet the result keeps the raw slice `"\na"`, cutting the line
`"ab"` in half: the source character following the kept prefix is `'b'`,
not a line feed, refuting "never cuts a line in half / ends exactly at a
line boundary". -/
theorem claim_C4_cex :
    truncateDiff ("\nab".data) 2 = ⟨true, ("\na".data) ++ truncationNote⟩ ∧
    lastIndexOfNL (("\nab".data).take 2) = some 0 ∧
    ("\nab".data)[("\na".data).length]? = some 'b' := by
  decide

theorem dedupKeepFirst_eq (rs : List (List Char)) :
    ∀ (seen : List (List Char)),
      dedupKeepFirst seen rs =
        (keepFirsts ((rs.map jsTrim).filter (fun l => decide (l ≠ [])))).filter
          (fun x => decide (x ∉ seen)) := by
  induction rs with
  | nil => intro seen; simp [dedupKeepFirst, keepFirsts]
  | cons raw rest ih =>
      intro seen
      by_cases hempty : jsTrim raw = []
      · have hstep : dedupKeepFirst seen (raw :: rest) = dedupKeepFirst seen rest := by
          dsimp only [dedupKeepFirst]
          rw [if_pos (Or.inl hempty)]
        rw [hstep, ih seen]
        have hdrop : ((raw :: rest).map jsTrim).filter (fun l => decide (l ≠ [])) =
            (rest.map jsTrim).filter (fun l => decide (l ≠ [])) := by
          simp [List.filter_cons, hempty]
        rw [hdrop]
      · have hkeep : ((raw :: rest).map jsTrim).filter (fun l => decide (l ≠ [])) =
            jsTrim raw :: (rest.map jsTrim).filter (fun l => decide (l ≠ [])) := by
          simp [List.filter_cons, hempty]
        rw [hkeep]
        by_cases hseen : jsTrim raw ∈ seen
        · have hstep : dedupKeepFirst seen (raw :: rest) = dedupKeepFirst seen rest := by
            dsimp only [dedupKeepFirst]
            rw [if_pos (Or.inr hseen)]
          rw [hstep, ih seen]
          dsimp only [keepFirsts]
          rw [List.filter_cons]
          rw [if_neg (show ¬(decide (jsTrim raw ∉ seen) = true) by simp [hseen])]
          rw [List.filter_filter]
          apply List.filter_congr
          intro x _
          by_cases h1 : x = jsTrim raw
          · subst h1
            simp [hseen]
          · simp [h1]
        · have hstep : dedupKeepFirst seen (raw :: rest) =
              jsTrim raw :: dedupKeepFirst (jsTrim raw :: seen) rest := by
            dsimp only [dedupKeepFirst]
            rw [if_neg (by push_neg; exact ⟨hempty, hseen⟩)]
          rw [hstep, ih (jsTrim raw :: seen)]
          dsimp only [keepFirsts]
          rw [List.filter_cons]
          rw [if_pos (show decide (jsTrim raw ∉ seen) = true by simp [hseen])]
          rw [List.filter_filter]
          congr 1
          apply List.filter_congr
          intro x _
          by_cases h1 : x = jsTrim raw
          · subst h1
            simp
          · by_cases h2 : x ∈ seen
            · simp [h1, h2]
            · simp [h1, h2]

theorem parseUniqueLines_eq_keepFirsts (t : List Char) :
    parseUniqueLines t = keepFirsts (processedLines t) := by
  dsimp only [parseUniqueLines, processedLines]
  rw [dedupKeepFirst_eq (splitRN t) []]
  rw [List.filter_congr (fun x _ => show decide (x ∉ ([] : List (List Char))) = true by simp)]
  exact List.filter_true _

theorem keepFirsts_sublist (l : List (List Char)) : (keepFirsts l).Sublist l := by
  induction l with
  | nil => simp [keepFirsts]
  | cons x rest ih =>
      dsimp only [keepFirsts]
      exact List.Sublist.cons₂ x ((List.filter_sublist (keepFirsts rest)).trans ih)

theorem keepFirsts_nodup (l : List (List Char)) : (keepFirsts l).Nodup := by
  induction l with
  | nil => simp [keepFirsts]
  | cons x rest ih =>
      dsimp only [keepFirsts]
      rw [List.nodup_cons]
      constructor
      · intro hmem
        have := (List.mem_filter.mp hmem).2
        simp at this
      · exact ih.filter _

theorem mem_keepFirsts (l : List (List Char)) (x : List Char) :
    x ∈ keepFirsts l ↔ x ∈ l := by
  induction l with
  | nil => simp [keepFirsts]
  | cons y rest ih =>
      dsimp only [keepFirsts]
      by_cases h : x = y
      · subst h
        simp
      · simp only [List.mem_cons, List.mem_filter, ih]
        constructor
        · rintro (hxy | ⟨hm, _⟩)
          · exact Or.inl hxy
          · exact Or.inr hm
        · rintro (hxy | hm)
          · exact Or.inl hxy
          · exact Or.inr ⟨hm, by simp [h]⟩

/-- Claim C5: `parseUniqueLines` is total (empty input gives the empty
list), splits/trims/deduplicates as specified, and returns exactly the
first-occurrence deduplication of the trimmed non-blank line stream: the
result is duplicate-free, is a sublist of that stream (so relative order
is preserved), contains exactly its elements, and every entry is the
trimmed form of some input line and non-empty.  The spec's worked
example is included. -/
theorem claim_C5 :
    parseUniqueLines [] = [] ∧
    (∀ t, parseUniqueLines t = keepFirsts (processedLines t)) ∧
    (∀ t, (parseUniqueLines t).Nodup) ∧
    (∀ t, (parseUniqueLines t).Sublist (processedLines t)) ∧
    (∀ t x, x ∈ parseUniqueLines t ↔ x ∈ processedLines t) ∧
    (∀ t x, x ∈ parseUniqueLines t → ∃ raw ∈ splitRN t, x = jsTrim raw ∧ x ≠ []) ∧
    parseUniqueLines ("a\n\nb\na\n  \nb\n".data) = [("a".data), ("b".data)] := by
  refine ⟨by decide, parseUniqueLines_eq_keepFirsts, ?_, ?_, ?_, ?_, by decide⟩
  · intro t
    rw [parseUniqueLines_eq_keepFirsts]
    exact keepFirsts_nodup _
  · intro t
    rw [parseUniqueLines_eq_keepFirsts]
    exact keepFirsts_sublist _
  · intro t x
    rw [parseUniqueLines_eq_keepFirsts]
    exact mem_keepFirsts _ x
  · intro t x hx
    rw [parseUniqueLines_eq_keepFirsts, mem_keepFirsts] at hx
    dsimp only [processedLines] at hx
    rcases List.mem_filter.mp hx with ⟨hmem, hne⟩
    rcases List.mem_map.mp hmem with ⟨raw, hraw, hx'⟩
    refine ⟨raw, hraw, hx'.symm, ?_⟩
    simpa using hne

/-- Claim C5 witness: the membership characterisation at a concrete
input. -/
theorem claim_C5_witness :
    ("a".data) ∈ parseUniqueLines ("a\n\nb\na\n  \nb\n".data) ∧
    (∃ raw ∈ splitRN ("a\n\nb\na\n  \nb\n".data), ("a".data) = jsTrim raw ∧ ("a".data) ≠ []) :=
  ⟨by decide, claim_C5.2.2.2.2.2.1 ("a\n\nb\na\n  \nb\n".data) ("a".data) (by decide)⟩

theorem linkbot_main_eval (inp : LinkBot.Inputs) (n : Nat) (pr : LinkBot.PrData)
    (hn : LinkBot.prNumberResolved inp = some n)
    (hpr : LinkBot.resolvePrData inp = .ok pr)
    (hbot : LinkBot.isBotAuthor pr = false)
    (hlist : inp.listOutcome = none)
    (hlinked : LinkBot.getLinkedOpenIssues inp.linkedRaw = some [])
    (halready : LinkBot.alreadyCommentedMissingIssue (inp.store.take inp.pageSize) = false)
    (hdry : inp.dryRun = false) :
    LinkBot.main inp =
      match inp.postOutcome with
      | none => .posted (LinkBot.commentBody inp.owner inp.repo (LinkBot.safeAuthor pr))
      | some s => .fault (some s) := by
  simp only [LinkBot.main, hn, hpr, hbot, hlist, hlinked, halready, hdry, List.length_nil,
    Bool.false_eq_true, if_false, if_true]

/-- Claim C6 (amended): with no issue/PR number resolvable the protobuf
notifiers log and exit normally, but the missing-linked-issue notifier
throws (`PR number could not be determined`), its outer catch logs and
rethrows, and the invocation faults. -/
theorem claim_C6_amended :
    (∀ (ctx : RepoCtx) (env : ProtoEnv) (fsm : List Char → Option (List Char))
        (listing : ListingOutcome) (post : Option Nat), ctx.prNumber = none →
      Proto1.main ctx env fsm listing post = .noop ∧
      Proto2.main ctx env fsm listing post = .noop) ∧
    (∀ inp : LinkBot.Inputs, LinkBot.prNumberResolved inp = none →
      LinkBot.main inp = .fault none) := by
  constructor
  · intro ctx env fsm listing post h
    constructor
    · simp only [Proto1.main, h]
    · simp only [Proto2.main, h]
  · intro inp h
    simp only [LinkBot.main, h]

/-- Claim C6 witness: concrete no-PR-number invocations of all three
notifiers. -/
theorem claim_C6_witness :
    Proto1.main ⟨"o".data, "r".data, none⟩ wEnv wFs (.ok []) none = .noop ∧
    Proto2.main ⟨"o".data, "r".data, none⟩ wEnv wFs (.ok []) none = .noop ∧
    LinkBot.main wLinkNoPr = .fault none :=
  ⟨(claim_C6_amended.1 ⟨"o".data, "r".data, none⟩ wEnv wFs (.ok []) none rfl).1,
   (claim_C6_amended.1 ⟨"o".data, "r".data, none⟩ wEnv wFs (.ok []) none rfl).2,
   claim_C6_amended.2 wLinkNoPr rfl⟩

/-- Claim C6 counterexample: a missing-linked-issue invocation whose
triggering event has no pull request and whose `PR_NUMBER` variable is
unset faults (the script throws and its catch rethrows) instead of
exiting normally — even though the PR-details fetch would have
succeeded — refuting "for every notifier ... exits normally without
raising any error". -/
theorem claim_C6_cex :
    LinkBot.prNumberResolved wLinkNoPr = none ∧ LinkBot.main wLinkNoPr = .fault none := by
  constructor
  · rfl
  · rfl

/-- Claim C9: a PR authored by a bot account — account type `Bot` or a
login ending in `[bot]` — makes the missing-linked-issue notifier skip
before any comment listing, link query or posting, whatever the link
state: no comment, no fault. -/
theorem claim_C9 (inp : LinkBot.Inputs) (n : Nat) (pr : LinkBot.PrData)
    (hn : LinkBot.prNumberResolved inp = some n)
    (hpr : LinkBot.resolvePrData inp = .ok pr)
    (hbot : LinkBot.isBotAuthor pr = true) :
    LinkBot.main inp = .noop := by
  simp only [LinkBot.main, hn, hpr, hbot, if_true]

/-- Claim C9 witness: a PR authored by `renovate[bot]` with zero linked
issues produces no comment and no error. -/
theorem claim_C9_witness :
    LinkBot.main wLinkBot = .noop ∧ wLinkBot.linkedRaw = .ok [] :=
  ⟨claim_C9 wLinkBot 7 wPrBot rfl rfl (by decide), rfl⟩

/-- Claim C7 (amended): for the two protobuf notifiers a comment-creation
rejection with status 403 or 404 is swallowed (logged no-op, invocation
succeeds) and any other rejection propagates as a fault; the
missing-linked-issue notifier, however, logs and rethrows every
comment-creation rejection — including 403/404 — so its invocation
faults. -/
theorem claim_C7_amended :
    (∀ (ctx : RepoCtx) (env : ProtoEnv) (fsm : List Char → Option (List Char))
        (listing : ListingOutcome) (n s : Nat),
      ctx.prNumber = some n → env.baseSha ≠ [] → env.headSha ≠ [] → env.filesPath ≠ [] →
      (Proto1.hasExistingTriggerComment ctx.owner ctx.repo n listing
          (Proto1.markerFor env.headSha)).1 = false →
      isDryRunEnv env = false →
      ((s = 403 ∨ s = 404) → Proto1.main ctx env fsm listing (some s) = .noop) ∧
      (s ≠ 403 → s ≠ 404 → Proto1.main ctx env fsm listing (some s) = .fault (some s))) ∧
    (∀ (ctx : RepoCtx) (env : ProtoEnv) (fsm : List Char → Option (List Char))
        (listing : ListingOutcome) (n s : Nat),
      ctx.prNumber = some n → env.baseSha ≠ [] → env.headSha ≠ [] → env.diffPath ≠ [] →
      env.filesPath ≠ [] → jsTrim (readTextFileOrEmpty env.diffPath fsm) ≠ [] →
      (Proto2.hasExistingTriggerComment ctx.owner ctx.repo n listing
          (Proto2.markerFor env.headSha)).1 = false →
      isDryRunEnv env = false →
      ((s = 403 ∨ s = 404) → Proto2.main ctx env fsm listing (some s) = .noop) ∧
      (s ≠ 403 → s ≠ 404 → Proto2.main ctx env fsm listing (some s) = .fault (some s))) ∧
    (∀ (inp : LinkBot.Inputs) (n s : Nat) (pr : LinkBot.PrData),
      LinkBot.prNumberResolved inp = some n → LinkBot.resolvePrData inp = .ok pr →
      LinkBot.isBotAuthor pr = false → inp.listOutcome = none →
      LinkBot.getLinkedOpenIssues inp.linkedRaw = some [] →
      LinkBot.alreadyCommentedMissingIssue (inp.store.take inp.pageSize) = false →
      inp.dryRun = false → inp.postOutcome = some s →
      LinkBot.main inp = .fault (some s)) := by
  refine ⟨?_, ?_, ?_⟩
  · intro ctx env fsm listing n s hn hb hh hf hg hdry
    have heval := proto1_main_eval ctx env fsm listing (some s) n hn hb hh hf hg hdry
    constructor
    · intro hs
      rw [heval]
      dsimp only [postOutcomeResult]
      rw [if_pos hs]
    · intro h3 h4
      rw [heval]
      dsimp only [postOutcomeResult]
      rw [if_neg (by tauto)]
  · intro ctx env fsm listing n s hn hb hh hd hf hdiff hg hdry
    have heval := proto2_main_eval ctx env fsm listing (some s) n hn hb hh hd hf hdiff hg hdry
    constructor
    · intro hs
      rw [heval]
      dsimp only [postOutcomeResult]
      rw [if_pos hs]
    · intro h3 h4
      rw [heval]
      dsimp only [postOutcomeResult]
      rw [if_neg (by tauto)]
  · intro inp n s pr hn hpr hbot hlist hlinked halready hdry hpost
    rw [linkbot_main_eval inp n pr hn hpr hbot hlist hlinked halready hdry, hpost]

/-- Claim C7 witness: a 403 rejection is swallowed and a 500 rejection
propagates for both protobuf notifiers, while the missing-linked-issue
notifier faults on 403. -/
theorem claim_C7_witness :
    Proto1.main wCtx wEnv wFs (.ok []) (some 403) = .noop ∧
    Proto1.main wCtx wEnv wFs (.ok []) (some 500) = .fault (some 500) ∧
    Proto2.main wCtx wEnv wFs (.ok []) (some 404) = .noop ∧
    Proto2.main wCtx wEnv wFs (.ok []) (some 500) = .fault (some 500) ∧
    LinkBot.main wLink403 = .fault (some 403) := by
  have h1 := claim_C7_amended.1 wCtx wEnv wFs (.ok []) 1 403 rfl (by decide) (by decide)
    (by decide) (by decide) (by decide)
  have h1' := claim_C7_amended.1 wCtx wEnv wFs (.ok []) 1 500 rfl (by decide) (by decide)
    (by decide) (by decide) (by decide)
  have h2 := claim_C7_amended.2.1 wCtx wEnv wFs (.ok []) 1 404 rfl (by decide) (by decide)
    (by decide) (by decide) (by decide) (by decide) (by decide)
  have h2' := claim_C7_amended.2.1 wCtx wEnv wFs (.ok []) 1 500 rfl (by decide) (by decide)
    (by decide) (by decide) (by decide) (by decide) (by decide)
  have h3 := claim_C7_amended.2.2 wLink403 7 403 wPrHuman rfl rfl (by decide) rfl rfl
    (by decide) rfl rfl
  exact ⟨h1.1 (Or.inl rfl), h1'.2 (by decide) (by decide), h2.1 (Or.inr rfl),
    h2'.2 (by decide) (by decide), h3⟩

/-- Claim C7 counterexample: the missing-linked-issue notifier's
comment-creation call rejected with status 403 makes the whole
invocation fault (catch logs, then `throw error`), refuting "for every
notifier a 403/404 creation failure is swallowed and the invocation
completes successfully". -/
theorem claim_C7_cex :
    wLink403.postOutcome = some 403 ∧ LinkBot.main wLink403 = .fault (some 403) := by
  constructor
  · rfl
  · rfl

set_option maxHeartbeats 2000000 in
theorem proto1_posted_inv (ctx : RepoCtx) (env : ProtoEnv)
    (fsm : List Char → Option (List Char)) (listing : ListingOutcome) (post : Option Nat)
    (b : List Char) (h : Proto1.main ctx env fsm listing post = .posted b) :
    b = Proto1.buildCommentBody (Proto1.mainBodyArgs env fsm) := by
  dsimp only [Proto1.main] at h
  split at h
  · exact absurd h (fun hc => RunResult.noConfusion hc)
  · split at h
    · exact absurd h (fun hc => RunResult.noConfusion hc)
    · split at h
      · exact absurd h (fun hc => RunResult.noConfusion hc)
      · split at h
        · exact absurd h (fun hc => RunResult.noConfusion hc)
        · dsimp only [postOutcomeResult] at h
          split at h
          · rw [RunResult.posted.injEq] at h
            exact h.symm
          · split at h
            · exact absurd h (fun hc => RunResult.noConfusion hc)
            · exact absurd h (fun hc => RunResult.noConfusion hc)

set_option maxHeartbeats 2000000 in
theorem proto2_posted_inv (ctx : RepoCtx) (env : ProtoEnv)
    (fsm : List Char → Option (List Char)) (listing : ListingOutcome) (post : Option Nat)
    (b : List Char) (h : Proto2.main ctx env fsm listing post = .posted b) :
    b = Proto2.buildCommentBody (Proto2.mainBodyArgs env fsm) := by
  dsimp only [Proto2.main] at h
  split at h
  · exact absurd h (fun hc => RunResult.noConfusion hc)
  · split at h
    · exact absurd h (fun hc => RunResult.noConfusion hc)
    · split at h
      · exact absurd h (fun hc => RunResult.noConfusion hc)
      · split at h
        · exact absurd h (fun hc => RunResult.noConfusion hc)
        · split at h
          · exact absurd h (fun hc => RunResult.noConfusion hc)
          · dsimp only [postOutcomeResult] at h
            split at h
            · rw [RunResult.posted.injEq] at h
              exact h.symm
            · split at h
              · exact absurd h (fun hc => RunResult.noConfusion hc)
              · exact absurd h (fun hc => RunResult.noConfusion hc)

set_option maxHeartbeats 2000000 in
theorem linkbot_posted_inv (inp : LinkBot.Inputs) (b : List Char)
    (h : LinkBot.main inp = .posted b) :
    ∃ pr : LinkBot.PrData,
      b = LinkBot.commentBody inp.owner inp.repo (LinkBot.safeAuthor pr) := by
  dsimp only [LinkBot.main] at h
  split at h
  · exact absurd h (fun hc => RunResult.noConfusion hc)
  · split at h
    · exact absurd h (fun hc => RunResult.noConfusion hc)
    · rename_i prv heq
      split at h
      · exact absurd h (fun hc => RunResult.noConfusion hc)
      · split at h
        · exact absurd h (fun hc => RunResult.noConfusion hc)
        · split at h
          · exact absurd h (fun hc => RunResult.noConfusion hc)
          · split at h
            · split at h
              · exact absurd h (fun hc => RunResult.noConfusion hc)
              · split at h
                · exact absurd h (fun hc => RunResult.noConfusion hc)
                · split at h
                  · rw [RunResult.posted.injEq] at h
                    exact ⟨prv, h.symm⟩
                  · exact absurd h (fun hc => RunResult.noConfusion hc)
            · exact absurd h (fun hc => RunResult.noConfusion hc)

/-- Claim C8 (amended): every body a notifier posts begins with that
notifier's hidden dedup marker.  For the two protobuf notifiers the
marker has the form `<prefix> <head-revision> -->` and determines the
head revision (distinct revisions give distinct markers); the
missing-linked-issue notifier instead uses the fixed marker
`<!-- LinkBot Missing Issue -->`, which carries no head revision. -/
theorem claim_C8_amended :
    (∀ (ctx : RepoCtx) (env : ProtoEnv) (fsm : List Char → Option (List Char))
        (listing : ListingOutcome) (post : Option Nat) (b : List Char),
      Proto1.main ctx env fsm listing post = .posted b →
      (Proto1.markerFor env.headSha).isPrefixOf b = true) ∧
    (∀ (ctx : RepoCtx) (env : ProtoEnv) (fsm : List Char → Option (List Char))
        (listing : ListingOutcome) (post : Option Nat) (b : List Char),
      Proto2.main ctx env fsm listing post = .posted b →
      (Proto2.markerFor env.headSha).isPrefixOf b = true) ∧
    (∀ (inp : LinkBot.Inputs) (b : List Char), LinkBot.main inp = .posted b →
      LinkBot.LINKBOT_MISSING_ISSUE_MARKER.isPrefixOf b = true) ∧
    (∀ h : List Char,
      Proto1.markerFor h = Proto1.MARKER_PREFIX ++ (' ' :: h) ++ (" -->".data)) ∧
    (∀ h1 h2 : List Char, Proto1.markerFor h1 = Proto1.markerFor h2 → h1 = h2) := by
  refine ⟨?_, ?_, ?_, fun _ => rfl, ?_⟩
  · intro ctx env fsm listing post b h
    rw [proto1_posted_inv ctx env fsm listing post b h, List.isPrefixOf_iff_prefix]
    have hp := proto1_marker_prefix_body (Proto1.mainBodyArgs env fsm)
    rwa [proto1_mainBodyArgs_marker] at hp
  · intro ctx env fsm listing post b h
    rw [proto2_posted_inv ctx env fsm listing post b h, List.isPrefixOf_iff_prefix]
    have hp := proto2_marker_prefix_body (Proto2.mainBodyArgs env fsm)
    rwa [proto2_mainBodyArgs_marker] at hp
  · intro inp b h
    obtain ⟨pr, rfl⟩ := linkbot_posted_inv inp b h
    rw [ List.isPrefixOf_iff_prefix]
    exact linkbot_marker_prefix_body inp.owner inp.repo (LinkBot.safeAuthor pr)
  · intro h1 h2 he
    dsimp only [Proto1.markerFor] at he
    have h2' := List.append_cancel_right he
    have h3' := List.append_cancel_left h2'
    injection h3'

set_option maxRecDepth 40000 in
/-- Claim C8 witness: concrete posted bodies of the first protobuf
notifier and of the missing-linked-issue notifier begin with their
markers, and marker injectivity applied at a concrete revision. -/
theorem claim_C8_witness :
    (Proto1.markerFor wEnv.headSha).isPrefixOf
        (Proto1.buildCommentBody (Proto1.mainBodyArgs wEnv wFs)) = true ∧
    LinkBot.LINKBOT_MISSING_ISSUE_MARKER.isPrefixOf
        (LinkBot.commentBody ("o".data) ("r".data) ("alice".data)) = true ∧
    ("h1".data) = ("h1".data) :=
  ⟨claim_C8_amended.1 wCtx wEnv wFs (.ok []) none _ (by decide),
   claim_C8_amended.2.2.1 wLinkBase _ (by decide),
   claim_C8_amended.2.2.2.2 ("h1".data) ("h1".data) rfl⟩

set_option maxRecDepth 40000 in
/-- Claim C8 counterexample: the missing-linked-issue notifier posts a
body for a PR whose head revision is `abc123`, yet that revision occurs
nowhere in the body — the leading marker is the fixed string
`<!-- LinkBot Missing Issue -->`, not a string of the form
`<prefix> <head-revision> -->` unique per (kind, head-revision) pair. -/
theorem claim_C8_cex :
    LinkBot.main wLinkBase =
      .posted (LinkBot.commentBody ("o".data) ("r".data) ("alice".data)) ∧
    listIncludes ("abc123".data)
        (LinkBot.commentBody ("o".data) ("r".data) ("alice".data)) = false ∧
    LinkBot.LINKBOT_MISSING_ISSUE_MARKER.isPrefixOf
        (LinkBot.commentBody ("o".data) ("r".data) ("alice".data)) = true := by
  decide

/-- Claim C10: the two protobuf variants build character-for-character
identical markers from the same head revision, and a comment whose body
either variant built suppresses the other variant's guard for that
revision. -/
theorem claim_C10 :
    (∀ h : List Char, Proto1.markerFor h = Proto2.markerFor h) ∧
    (∀ (h : List Char) (rest : List Comment) (a : BodyArgs1) (o r : List Char) (n : Nat),
      (Proto2.hasExistingTriggerComment o r n
        (.ok (⟨some (Proto1.buildCommentBody { a with marker := Proto1.markerFor h })⟩ :: rest))
        (Proto2.markerFor h)).1 = true) ∧
    (∀ (h : List Char) (rest : List Comment) (a : BodyArgs2) (o r : List Char) (n : Nat),
      (Proto1.hasExistingTriggerComment o r n
        (.ok (⟨some (Proto2.buildCommentBody { a with marker := Proto2.markerFor h })⟩ :: rest))
        (Proto1.markerFor h)).1 = true) := by
  refine ⟨fun _ => rfl, ?_, ?_⟩
  · intro h rest a o r n
    have hmark : commentHasMarker
        ⟨some (Proto1.buildCommentBody { a with marker := Proto1.markerFor h })⟩
        (Proto2.markerFor h) = true := by
      dsimp only [commentHasMarker]
      apply (listIncludes_iff _ _).mpr
      apply List.IsPrefix.isInfix
      have heq : Proto2.markerFor h = Proto1.markerFor h := rfl
      rw [heq]
      exact proto1_marker_prefix_body { a with marker := Proto1.markerFor h }
    dsimp only [Proto2.hasExistingTriggerComment, guardScan]
    have hscan : scanComments false (Proto2.markerFor h) 0
        (⟨some (Proto1.buildCommentBody { a with marker := Proto1.markerFor h })⟩ :: rest) =
        some true := by
      dsimp only [scanComments]
      rw [if_pos hmark]
    rw [hscan]
  · intro h rest a o r n
    have hmark : commentHasMarker
        ⟨some (Proto2.buildCommentBody { a with marker := Proto2.markerFor h })⟩
        (Proto1.markerFor h) = true := by
      dsimp only [commentHasMarker]
      apply (listIncludes_iff _ _).mpr
      apply List.IsPrefix.isInfix
      have heq : Proto1.markerFor h = Proto2.markerFor h := rfl
      rw [heq]
      exact proto2_marker_prefix_body { a with marker := Proto2.markerFor h }
    dsimp only [Proto1.hasExistingTriggerComment, guardScan]
    have hscan : scanComments true (Proto1.markerFor h) 0
        (⟨some (Proto2.buildCommentBody { a with marker := Proto2.markerFor h })⟩ :: rest) =
        some true := by
      dsimp only [scanComments]
      rw [if_pos hmark]
    rw [hscan]
